import Mathlib

/-!
Verification development for the `reddis` in-memory key-value server.

The definitions below are a shallow embedding of the Rust sources:
  * `src/redis.rs`   — the keyspace engine (`Redis::exec` and its helpers)
  * `src/cmd/parser.rs` — the nom-based RESP frame decoder
  * `src/value.rs`   — the reply value model (`RedisValue` and `From` impls)
  * `src/main.rs`    — the session driver's reply encoding (`Session::run`)

Byte strings are modelled as `List Nat` (each entry a byte value), the
`HashMap<String, Value>` dictionary as an association list with
replace-in-place insertion, and the `BinaryHeap<Reverse<(u64, String)>>`
TTL index as a list from which the minimum element is popped.  Rust panics
(`unwrap` on `None`/`Err`, arithmetic overflow in debug builds) are
modelled as `Option.none` / a dedicated `crash` constructor; the one
place where release builds wrap instead of panicking (`incr`'s `v + 1`)
is modelled with explicit two's-complement wrapping (`wrap64`).
-/

namespace Reddis

/-- A Rust `Vec<u8>` byte string: a list of byte values (each `< 256`). -/
abbrev Bytes := List Nat

/-- `enum Value` from `src/redis.rs`: `Raw(Arc<Vec<u8>>)` or
`List(LinkedList<Vec<u8>>)`. -/
inductive Value where
  | Raw (data : Bytes)
  | List (items : List Bytes)
deriving DecidableEq

/-- The `HashMap<String, Value>` keyspace, as an association list without
duplicate keys. -/
abbrev Dict := List (String × Value)

/-- `HashMap::get`. -/
def dictGet : Dict → String → Option Value
  | [], _ => none
  | (k2, v2) :: rest, k => if k2 = k then some v2 else dictGet rest k

/-- `HashMap::insert`: replace in place when the key is present, append
otherwise. -/
def dictInsert : Dict → String → Value → Dict
  | [], k, v => [(k, v)]
  | (k2, v2) :: rest, k, v =>
    if k2 = k then (k, v) :: rest else (k2, v2) :: dictInsert rest k v

/-- `HashMap::remove`: returns the removed value (if any) and the
remaining dictionary. -/
def dictRemove : Dict → String → Option Value × Dict
  | [], _ => (none, [])
  | (k2, v2) :: rest, k =>
    if k2 = k then (some v2, rest)
    else
      let r := dictRemove rest k
      (r.1, (k2, v2) :: r.2)

/-- `HashMap::contains_key`. -/
def dictContains (d : Dict) (k : String) : Bool := (dictGet d k).isSome

/-- `SharedData` from `src/redis.rs`: the dictionary plus the TTL
min-heap of `(deadline_seconds, key)` pairs. -/
structure State where
  dict : Dict
  ttlHeap : List (Nat × String)
deriving DecidableEq

/-- `RedisError` as used by `src/redis.rs` (`Type`, `Parse`, `IO`). -/
inductive RErr where
  | TypeErr
  | Parse (msg : String)
  | IOErr (msg : String)
deriving DecidableEq

/-- ASCII decimal digit test (`'0'..='9'`). -/
def isDigitB (b : Nat) : Bool := 48 ≤ b && b ≤ 57

/-- Numeric value of a list of ASCII digit bytes. -/
def decVal (ds : List Nat) : Nat := ds.foldl (fun acc d => acc * 10 + (d - 48)) 0

/-- Rust `str::parse::<usize>()` on a byte string: nonempty, all ASCII
digits, and within the 64-bit range. -/
def parseUsize (ds : Bytes) : Option Nat :=
  if ds ≠ [] && ds.all isDigitB then
    if decVal ds < 2 ^ 64 then some (decVal ds) else none
  else none

/-- Rust `str::parse::<i64>()` on a byte string: an optional `+`/`-`
sign, then a nonempty run of ASCII digits, with the value required to
fit in a signed 64-bit integer. -/
def parseI64 (bs : Bytes) : Option Int :=
  let p : Bool × List Nat :=
    match bs with
    | 43 :: rest => (false, rest)
    | 45 :: rest => (true, rest)
    | _ => (false, bs)
  if p.2 ≠ [] && p.2.all isDigitB then
    let v : Int := if p.1 then -(decVal p.2 : Int) else (decVal p.2 : Int)
    if -(2 ^ 63) ≤ v ∧ v < 2 ^ 63 then some v else none
  else none

/-- Two's-complement wrapping of an integer into the signed 64-bit
range: the result of `i64` addition in Rust release builds. -/
def wrap64 (v : Int) : Int := (v + 2 ^ 63) % 2 ^ 64 - 2 ^ 63

/-- ASCII decimal digits of `n`, accumulator form.  The fuel bounds the
number of digits; 20 digits cover every 64-bit magnitude. -/
def natToDecAux : Nat → Nat → Bytes → Bytes
  | 0, _, acc => acc
  | fuel + 1, n, acc =>
    if n < 10 then (48 + n) :: acc
    else natToDecAux fuel (n / 10) ((48 + n % 10) :: acc)

/-- ASCII decimal rendering of a natural number (`u64::to_string`). -/
def natToDec (n : Nat) : Bytes := natToDecAux 20 n []

/-- ASCII decimal rendering of an integer (`i64::to_string`). -/
def intToDec (v : Int) : Bytes :=
  if v < 0 then 45 :: natToDec v.natAbs else natToDec v.toNat

/-- The UTF-8 bytes of an ASCII Lean string literal. -/
def strBytes (s : String) : Bytes := s.toList.map Char.toNat

/-- UTF-8 continuation byte (`0x80..=0xBF`). -/
def isCont (b : Nat) : Bool := 128 ≤ b && b ≤ 191

/-- Rust `str::from_utf8` validity: standard UTF-8, rejecting overlong
encodings, surrogates and code points above `U+10FFFF`. -/
def utf8Valid : Bytes → Bool
  | [] => true
  | b :: rest =>
    if b ≤ 127 then utf8Valid rest
    else if 194 ≤ b && b ≤ 223 then
      match rest with
      | c1 :: r => isCont c1 && utf8Valid r
      | _ => false
    else if b = 224 then
      match rest with
      | c1 :: c2 :: r => (160 ≤ c1 && c1 ≤ 191) && isCont c2 && utf8Valid r
      | _ => false
    else if 225 ≤ b && b ≤ 236 then
      match rest with
      | c1 :: c2 :: r => isCont c1 && isCont c2 && utf8Valid r
      | _ => false
    else if b = 237 then
      match rest with
      | c1 :: c2 :: r => (128 ≤ c1 && c1 ≤ 159) && isCont c2 && utf8Valid r
      | _ => false
    else if 238 ≤ b && b ≤ 239 then
      match rest with
      | c1 :: c2 :: r => isCont c1 && isCont c2 && utf8Valid r
      | _ => false
    else if b = 240 then
      match rest with
      | c1 :: c2 :: c3 :: r => (144 ≤ c1 && c1 ≤ 191) && isCont c2 && isCont c3 && utf8Valid r
      | _ => false
    else if 241 ≤ b && b ≤ 243 then
      match rest with
      | c1 :: c2 :: c3 :: r => isCont c1 && isCont c2 && isCont c3 && utf8Valid r
      | _ => false
    else if b = 244 then
      match rest with
      | c1 :: c2 :: c3 :: r => (128 ≤ c1 && c1 ≤ 143) && isCont c2 && isCont c3 && utf8Valid r
      | _ => false
    else false

/-- `Command` as consumed by `Redis::exec` in `src/redis.rs` and
produced by `src/cmd/parser.rs` (keys as strings, payloads as byte
strings). -/
inductive Command where
  | Set (k : String) (v : Bytes)
  | Get (k : String)
  | SetEx (k : String) (v : Bytes) (ttl : Nat)
  | Ping
  | CommandDocs
  | DbSize
  | Config
  | Lpush (k : String) (vs : List Bytes)
  | Rpush (k : String) (vs : List Bytes)
  | LpushX (k : String) (vs : List Bytes)
  | RpushX (k : String) (vs : List Bytes)
  | Lpop (k : String) (times : Nat)
  | Rpop (k : String) (times : Nat)
  | Del (ks : List String)
  | Incr (k : String)
deriving DecidableEq

/-- `RedisValue` from `src/value.rs`.  A Rust `String` payload is
represented by its UTF-8 bytes. -/
inductive RedisValue where
  | Ok
  | Nothing
  | Integer (n : Int)
  | EmptyString
  | SimpleString (s : Bytes)
  | BulkString (xs : List Bytes)
  | Array (xs : List Bytes)
deriving DecidableEq

/-- `impl From<Vec<Vec<u8>>> for RedisValue` from `src/value.rs`: each
element goes through `String::from_utf8(...).unwrap()`, so the
conversion panics (`none`) as soon as one element is not valid UTF-8. -/
def redisValueFromLists (vss : List Bytes) : Option RedisValue :=
  if vss.all utf8Valid then some (.Array vss) else none

/-- `Redis::set` from `src/redis.rs`. -/
def redisSet (s : State) (k : String) (v : Bytes) : State :=
  ⟨dictInsert s.dict k (Value.Raw v), s.ttlHeap⟩

/-- `Redis::setex` from `src/redis.rs`: insert the value and push
`(now + ttl, key)` onto the TTL heap. -/
def redisSetex (s : State) (k : String) (v : Bytes) (ttl now : Nat) : State :=
  ⟨dictInsert s.dict k (Value.Raw v), (now + ttl, k) :: s.ttlHeap⟩

/-- `Redis::get` from `src/redis.rs`. -/
def redisGet (s : State) (k : String) : Except RErr (Option Bytes) :=
  match dictGet s.dict k with
  | some (Value.Raw d) => .ok (some d)
  | some _ => .error .TypeErr
  | none => .ok none

/-- `Redis::push` from `src/redis.rs`.  Note the existing-list arm:
`values.iter().for_each(|v| ll.push_front(v.to_vec()))` pushes every
element to the FRONT regardless of the `front` flag; the flag is
consulted only on the creation path. -/
def redisPush (s : State) (k : String) (vs : List Bytes)
    (allowCreation front : Bool) : Except RErr (Nat × State) :=
  match dictGet s.dict k with
  | some (Value.List ll) =>
    let ll2 := vs.foldl (fun acc v => v :: acc) ll
    .ok (ll2.length, ⟨dictInsert s.dict k (Value.List ll2), s.ttlHeap⟩)
  | some _ => .error .TypeErr
  | none =>
    if !allowCreation then .ok (vs.length, s)
    else
      let ll := vs.foldl (fun acc v => if front then v :: acc else acc ++ [v]) []
      .ok (vs.length, ⟨dictInsert s.dict k (Value.List ll), s.ttlHeap⟩)

/-- Repeated `LinkedList::pop_front`, up to `n` times: the popped
elements in removal order, and the remaining list. -/
def popFrontN : Nat → List Bytes → List Bytes × List Bytes
  | 0, l => ([], l)
  | _ + 1, [] => ([], [])
  | n + 1, x :: xs =>
    let r := popFrontN n xs
    (x :: r.1, r.2)

/-- Repeated `LinkedList::pop_back`, up to `n` times: the popped
elements in removal order, and the remaining list. -/
def popBackN : Nat → List Bytes → List Bytes × List Bytes
  | 0, l => ([], l)
  | n + 1, l =>
    match l.getLast? with
    | none => ([], l)
    | some x =>
      let r := popBackN n l.dropLast
      (x :: r.1, r.2)

/-- `Redis::pop` from `src/redis.rs`: an absent key yields an empty
vector; a list pops up to `times` elements from the chosen end; a raw
value is a type error. -/
def redisPop (s : State) (k : String) (times : Nat) (front : Bool) :
    Except RErr (List Bytes × State) :=
  match dictGet s.dict k with
  | none => .ok ([], s)
  | some (Value.List ll) =>
    let r := if front then popFrontN times ll else popBackN times ll
    .ok (r.1, ⟨dictInsert s.dict k (Value.List r.2), s.ttlHeap⟩)
  | some _ => .error .TypeErr

/-- `Redis::delete` from `src/redis.rs`: remove each present key,
counting the removals. -/
def redisDelete (s : State) (ks : List String) : Nat × State :=
  ks.foldl
    (fun acc k =>
      if dictContains acc.2.dict k then
        (acc.1 + 1, ⟨(dictRemove acc.2.dict k).2, acc.2.ttlHeap⟩)
      else acc)
    (0, s)

/-- `Redis::keys_count` from `src/redis.rs`. -/
def keysCount (s : State) : Nat := s.dict.length

/-- `Redis::incr` from `src/redis.rs`.  A raw value is decoded with
`String::from_utf8_lossy` (a borrowed cow only when the bytes are valid
UTF-8) and parsed as `i64`; parse failure is a type error.  The
increment `v + 1` is the unchecked Rust addition: release builds wrap
(modelled by `wrap64`), debug builds panic. -/
def redisIncr (s : State) (k : String) : Except RErr (Int × State) :=
  match dictGet s.dict k with
  | some (Value.Raw v) =>
    if utf8Valid v then
      match parseI64 v with
      | none => .error .TypeErr
      | some n =>
        let newValue := wrap64 (n + 1)
        .ok (newValue, ⟨dictInsert s.dict k (Value.Raw (intToDec newValue)), s.ttlHeap⟩)
    else .error .TypeErr
  | none => .ok (1, ⟨dictInsert s.dict k (Value.Raw [49]), s.ttlHeap⟩)
  | some _ => .error .TypeErr

/-- An observable event inside `Redis::exec`: a call to the journal
sink's `write(command)`, or the invocation of the state-mutating helper
(`set`/`setex`/`push`/`pop`/`delete`/`incr`). -/
inductive Event where
  | jwrite (c : Command)
  | apply
deriving DecidableEq

deriving instance DecidableEq for Except

/-- The outcome of one `Redis::exec` call: the ordered trace of journal
writes and helper invocations, the reply (`none` models a panic on the
reply-conversion path), and the resulting keyspace state. -/
structure ExecOut where
  trace : List Event
  reply : Option (Except RErr RedisValue)
  state : State
deriving DecidableEq

/-- The four `Lpush`/`Rpush`/`LpushX`/`RpushX` arms of `Redis::exec`:
journal write, then `push`, then `Ok(RedisValue::Ok)` (the length
returned by `push` is discarded with `?;`). -/
def pushArm (c : Command) (s : State) (k : String) (vs : List Bytes)
    (allowCreation front : Bool) : ExecOut :=
  match redisPush s k vs allowCreation front with
  | .ok _r => ⟨[.jwrite c, .apply], some (.ok .Ok), _r.2⟩
  | .error e => ⟨[.jwrite c, .apply], some (.error e), s⟩

/-- The `Lpop`/`Rpop` arms of `Redis::exec`: journal write, then `pop`,
then `RedisValue::from(v)` — which panics on non-UTF-8 payloads. -/
def popArm (c : Command) (s : State) (k : String) (t : Nat) (front : Bool) : ExecOut :=
  match redisPop s k t front with
  | .ok r =>
    match redisValueFromLists r.1 with
    | some rv => ⟨[.jwrite c, .apply], some (.ok rv), r.2⟩
    | none => ⟨[.jwrite c, .apply], none, r.2⟩
  | .error e => ⟨[.jwrite c, .apply], some (.error e), s⟩

/-- `Redis::exec` from `src/redis.rs`.  `now` is the wall-clock second
read inside `setex`.  Note that the `Set` arm does NOT call
`journal.write`, while every other mutating arm writes the journal
before invoking its helper. -/
def exec (now : Nat) (c : Command) (s : State) : ExecOut :=
  match c with
  | .Set k v => ⟨[.apply], some (.ok .Ok), redisSet s k v⟩
  | .Get k =>
    match redisGet s k with
    | .error e => ⟨[], some (.error e), s⟩
    | .ok none => ⟨[], some (.ok .EmptyString), s⟩
    | .ok (some v) => ⟨[], some (.ok (.SimpleString v)), s⟩
  | .SetEx k v ttl => ⟨[.jwrite c, .apply], some (.ok .Ok), redisSetex s k v ttl now⟩
  | .Ping => ⟨[], some (.ok (.SimpleString (strBytes "PONG"))), s⟩
  | .CommandDocs => ⟨[], some (.ok (.BulkString [])), s⟩
  | .DbSize => ⟨[], some (.ok (.Integer (keysCount s))), s⟩
  | .Config => ⟨[], some (.ok (.BulkString [])), s⟩
  | .Lpush k vs => pushArm c s k vs true true
  | .Rpush k vs => pushArm c s k vs true false
  | .LpushX k vs => pushArm c s k vs false true
  | .RpushX k vs => pushArm c s k vs false false
  | .Lpop k t => popArm c s k t true
  | .Rpop k t => popArm c s k t false
  | .Del ks =>
    ⟨[.jwrite c, .apply], some (.ok (.Integer ((redisDelete s ks).1 : Int))),
      (redisDelete s ks).2⟩
  | .Incr k =>
    match redisIncr s k with
    | .ok r => ⟨[.jwrite c, .apply], some (.ok (.Integer r.1)), r.2⟩
    | .error e => ⟨[.jwrite c, .apply], some (.error e), s⟩

/-- The journal writes recorded in a trace, in order. -/
def journalWrites (t : List Event) : List Command :=
  t.filterMap fun e =>
    match e with
    | .jwrite c => some c
    | .apply => none

/-- The mutating commands per the specification: SET, SETEX, the
LPUSH/RPUSH family, LPOP/RPOP, DEL, INCR. -/
def isMutating : Command → Bool
  | .Set _ _ => true
  | .SetEx _ _ _ => true
  | .Lpush _ _ => true
  | .Rpush _ _ => true
  | .LpushX _ _ => true
  | .RpushX _ _ => true
  | .Lpop _ _ => true
  | .Rpop _ _ => true
  | .Del _ => true
  | .Incr _ => true
  | _ => false

/-- Recogniser for the `Set` command. -/
def isSetCmd : Command → Bool
  | .Set _ _ => true
  | _ => false

/-- Lexicographic order on byte lists (Rust `Ord` for `String`). -/
def lexLt : List Nat → List Nat → Bool
  | [], [] => false
  | [], _ :: _ => true
  | _ :: _, [] => false
  | a :: as, b :: bs => a < b || (a = b && lexLt as bs)

/-- Rust `Ord` on `(u64, String)` pairs: `a ≤ b`. -/
def pairLe (a b : Nat × String) : Bool :=
  a.1 < b.1 || (a.1 = b.1 && !(lexLt (strBytes b.2) (strBytes a.2)))

/-- The minimum element of the TTL heap (what
`BinaryHeap<Reverse<(u64, String)>>::pop` returns). -/
def heapMinElem : List (Nat × String) → Option (Nat × String)
  | [] => none
  | x :: xs =>
    some (match heapMinElem xs with
      | none => x
      | some m => if pairLe x m then x else m)

/-- Remove the first occurrence of an element from the heap list. -/
def removeFirst : List (Nat × String) → (Nat × String) → List (Nat × String)
  | [], _ => []
  | x :: xs, y => if x = y then xs else x :: removeFirst xs y

/-- `BinaryHeap::pop`: the minimum entry and the remaining heap. -/
def heapPopMin (h : List (Nat × String)) :
    Option ((Nat × String) × List (Nat × String)) :=
  match heapMinElem h with
  | none => none
  | some m => some (m, removeFirst h m)

/-- The `while let Some(Reverse((w, key))) = s_data.ttl_heap.pop()` loop
of `spawn_ttl_heap_cleaner` in `src/redis.rs`.  If the popped deadline
has not passed (`w >= now`) the entry is pushed back and the loop
stops; otherwise the key is removed with
`s_data.dict.remove(&key).unwrap()` — the `unwrap` panics (`none`) when
the key is absent from the dictionary.  Fuel is the heap size. -/
def reapLoop (now : Nat) : Nat → Dict → List (Nat × String) →
    Option (Dict × List (Nat × String))
  | 0, dict, heap => some (dict, heap)
  | fuel + 1, dict, heap =>
    match heapPopMin heap with
    | none => some (dict, heap)
    | some ((w, k), rest) =>
      if now ≤ w then some (dict, (w, k) :: rest)
      else
        match dictRemove dict k with
        | (none, _) => none
        | (some _, d2) => reapLoop now fuel d2 rest

/-- One tick of the TTL reaper: skip when the heap is empty, otherwise
run the pop loop at wall-clock second `now`.  `none` models a panic. -/
def reaperTick (now : Nat) (s : State) : Option State :=
  if s.ttlHeap = [] then some s
  else
    match reapLoop now s.ttlHeap.length s.dict s.ttlHeap with
    | none => none
    | some r => some ⟨r.1, r.2⟩

/-- `OpResult` from `src/main.rs` (the session driver's reply type);
Rust `String` payloads are represented by their UTF-8 bytes and the
`u64` integer by a natural number. -/
inductive OpResult where
  | Ok
  | Nothing
  | Integer (n : Nat)
  | EmptyString
  | SimpleString (s : Bytes)
  | BulkString (xs : List Bytes)
  | Array (xs : List Bytes)
deriving DecidableEq

/-- `impl From<Vec<Vec<u8>>> for OpResult` from `src/main.rs`: panics
(`none`) when an element is not valid UTF-8. -/
def opResultFromLists (vss : List Bytes) : Option OpResult :=
  if vss.all utf8Valid then some (.Array vss) else none

/-- The reply serialisation of `Session::run` in `src/main.rs`, as the
bytes written to the socket.  An empty `Array` is matched by the
`v.is_empty()` guard and encoded as the null array `*-1\r\n`. -/
def encodeOutput : Except RErr OpResult → Bytes
  | .ok .Ok => strBytes "+OK\r\n"
  | .ok .EmptyString => strBytes "$-1\r\n"
  | .ok (.SimpleString e) =>
    strBytes "$" ++ natToDec e.length ++ strBytes "\r\n" ++ e ++ strBytes "\r\n"
  | .ok .Nothing => [0]
  | .ok (.Array v) =>
    if v.isEmpty then strBytes "*-1\r\n"
    else
      strBytes "*" ++ natToDec v.length ++ strBytes "\r\n" ++
        v.foldl
          (fun acc e =>
            acc ++ strBytes "$" ++ natToDec e.length ++ strBytes "\r\n" ++
              e ++ strBytes "\r\n")
          []
  | .ok (.Integer n) => strBytes ":" ++ natToDec n ++ strBytes "\r\n"
  | .ok (.BulkString _) => strBytes "$-1\r\n"
  | .error .TypeErr =>
    strBytes "-WRONGTYPE Operation against a key holding the wrong kind of value\r\n"
  | .error (.Parse m) => strBytes "-ERR " ++ strBytes m ++ strBytes "\r\n"
  | .error (.IOErr m) => strBytes "-ERR " ++ strBytes m ++ strBytes "\r\n"

/-- Result of a nom parser from `src/cmd/parser.rs`: success with the
remaining input, a recoverable `Err::Error` (tagged with the nom
`ErrorKind` description), or a Rust panic (`crash`, from the `unwrap`
calls inside the parser functions). -/
inductive PR (α : Type) where
  | ok (rest : Bytes) (v : α)
  | err (kind : String)
  | crash
deriving DecidableEq

/-- `CmdCode` from `src/cmd/parser.rs`. -/
inductive CmdCode where
  | Ping
  | Set
  | Get
  | SetEx
  | Lpush
  | Rpush
  | LpushX
  | RpushX
  | Lpop
  | Rpop
  | Del
  | Incr
  | DbSize
  | CommandDocs
deriving DecidableEq

/-- nom `tag`: match an exact byte sequence. -/
def tagB (t : Bytes) (i : Bytes) : PR Unit :=
  if t.isPrefixOf i then .ok (i.drop t.length) () else .err "Tag"

/-- ASCII lowercasing of one byte. -/
def lowerByte (b : Nat) : Nat := if 65 ≤ b && b ≤ 90 then b + 32 else b

/-- nom `tag_no_case`: match a byte sequence up to ASCII case. -/
def tagNoCaseB (t : Bytes) (i : Bytes) : PR Unit :=
  if t.length ≤ i.length && (i.take t.length).map lowerByte = t.map lowerByte then
    .ok (i.drop t.length) ()
  else .err "Tag"

/-- `value_len` from `src/cmd/parser.rs`: `$`, a run of digits, CRLF,
then `_u.parse::<usize>().unwrap()` — the `unwrap` panics when the
digit run is empty (or out of `usize` range). -/
def valueLenP (i : Bytes) : PR Nat :=
  match tagB (strBytes "$") i with
  | .ok i1 _ =>
    let ds := i1.takeWhile isDigitB
    match tagB (strBytes "\r\n") (i1.dropWhile isDigitB) with
    | .ok i2 _ =>
      match parseUsize ds with
      | some n => .ok i2 n
      | none => .crash
    | .err k => .err k
    | .crash => .crash
  | .err k => .err k
  | .crash => .crash

/-- One `map(tag_no_case(..), |_| code)` alternative of `cmd`. -/
def cmdTag (t : String) (code : CmdCode) (i : Bytes) : PR CmdCode :=
  match tagNoCaseB (strBytes t) i with
  | .ok r _ => .ok r code
  | .err k => .err k
  | .crash => .crash

/-- nom `alt`: try the second parser only when the first returns a
recoverable error. -/
def orPR {α : Type} (a b : PR α) : PR α :=
  match a with
  | .err _ => b
  | r => r

/-- `cmd` from `src/cmd/parser.rs`: an optional bulk-length header,
then the `alt` of the command words IN SOURCE ORDER (note `SET` is
tried before `SETEX`), then CRLF. -/
def cmdP (i : Bytes) : PR CmdCode :=
  match valueLenP i with
  | .crash => .crash
  | res =>
    let i1 := match res with
      | .ok r _ => r
      | _ => i
    let alts :=
      orPR (cmdTag "PING" .Ping i1) <|
      orPR (cmdTag "SET" .Set i1) <|
      orPR (cmdTag "GET" .Get i1) <|
      orPR (cmdTag "SETEX" .SetEx i1) <|
      orPR (cmdTag "LPUSHX" .LpushX i1) <|
      orPR (cmdTag "RPUSHX" .RpushX i1) <|
      orPR (cmdTag "LPUSH" .Lpush i1) <|
      orPR (cmdTag "RPUSH" .Rpush i1) <|
      orPR (cmdTag "LPOP" .Lpop i1) <|
      orPR (cmdTag "RPOP" .Rpop i1) <|
      orPR (cmdTag "DEL" .Del i1) <|
      orPR (cmdTag "INCR" .Incr i1) <|
      orPR (cmdTag "DBSIZE" .DbSize i1) <|
      cmdTag "COMMAND" .CommandDocs i1
    match alts with
    | .ok i2 code =>
      match tagB (strBytes "\r\n") i2 with
      | .ok i3 _ => .ok i3 code
      | .err k => .err k
      | .crash => .crash
    | .err k => .err k
    | .crash => .crash

/-- `value` from `src/cmd/parser.rs`: `$`, `digit0`, then
`size_str.parse::<usize>().unwrap()` (panics on an empty digit run),
CRLF, then the slice `&i[0..str_size]` (panics when the input is
shorter than the announced length). -/
def valueP (i : Bytes) : PR Bytes :=
  match tagB (strBytes "$") i with
  | .ok i1 _ =>
    let ds := i1.takeWhile isDigitB
    match parseUsize ds with
    | none => .crash
    | some n =>
      match tagB (strBytes "\r\n") (i1.dropWhile isDigitB) with
      | .ok i2 _ =>
        if n ≤ i2.length then .ok (i2.drop n) (i2.take n) else .crash
      | .err k => .err k
      | .crash => .crash
  | .err k => .err k
  | .crash => .crash

/-- `string` from `src/cmd/parser.rs`: a bulk value followed by CRLF. -/
def stringP (i : Bytes) : PR Bytes :=
  match valueP i with
  | .ok i1 v =>
    match tagB (strBytes "\r\n") i1 with
    | .ok i2 _ => .ok i2 v
    | .err k => .err k
    | .crash => .crash
  | .err k => .err k
  | .crash => .crash

/-- `u_number` from `src/cmd/parser.rs`: a bulk string whose payload is
fed to `v.parse::<usize>().unwrap()` — a non-numeric payload panics
rather than producing a parse error. -/
def uNumberP (i : Bytes) : PR Nat :=
  match stringP i with
  | .ok i1 v =>
    match parseUsize v with
    | some n => .ok i1 n
    | none => .crash
  | .err k => .err k
  | .crash => .crash

/-- The loop of nom `separated_list0(tag("\r\n"), value)`: when the
element parser fails after a separator, the separator is not consumed. -/
def sepListLoop : Nat → Bytes → List Bytes → PR (List Bytes)
  | 0, i, acc => .ok i acc
  | fuel + 1, i, acc =>
    match tagB (strBytes "\r\n") i with
    | .err _ => .ok i acc
    | .crash => .crash
    | .ok i1 _ =>
      match valueP i1 with
      | .err _ => .ok i acc
      | .crash => .crash
      | .ok i2 v => sepListLoop fuel i2 (acc ++ [v])

/-- nom `separated_list0(tag("\r\n"), value)`. -/
def sepListValues (i : Bytes) : PR (List Bytes) :=
  match valueP i with
  | .crash => .crash
  | .err _ => .ok i []
  | .ok i1 v => sepListLoop i1.length i1 [v]

/-- Decode ASCII bytes into a Lean string (keys in parsed commands). -/
def bytesToStr (bs : Bytes) : String := String.mk (bs.map Char.ofNat)

/-- `push` from `src/cmd/parser.rs`: a key then a separated list of
values. -/
def pushBody (i : Bytes) (f : String → List Bytes → Command) : PR Command :=
  match stringP i with
  | .ok i1 key =>
    match sepListValues i1 with
    | .ok i2 vs => .ok i2 (f (bytesToStr key) vs)
    | .err k => .err k
    | .crash => .crash
  | .err k => .err k
  | .crash => .crash

/-- `pop` from `src/cmd/parser.rs`: a key then a count. -/
def popBody (i : Bytes) (f : String → Nat → Command) : PR Command :=
  match stringP i with
  | .ok i1 key =>
    match uNumberP i1 with
    | .ok i2 n => .ok i2 (f (bytesToStr key) n)
    | .err k => .err k
    | .crash => .crash
  | .err k => .err k
  | .crash => .crash

/-- `root` from `src/cmd/parser.rs`: dispatch on the command code and
parse the arguments of each command. -/
def rootP (i : Bytes) : PR Command :=
  match cmdP i with
  | .err k => .err k
  | .crash => .crash
  | .ok i1 code =>
    match code with
    | .Set =>
      match stringP i1 with
      | .ok i2 key =>
        match stringP i2 with
        | .ok i3 v => .ok i3 (.Set (bytesToStr key) v)
        | .err k => .err k
        | .crash => .crash
      | .err k => .err k
      | .crash => .crash
    | .Get =>
      match stringP i1 with
      | .ok i2 key => .ok i2 (.Get (bytesToStr key))
      | .err k => .err k
      | .crash => .crash
    | .SetEx =>
      match stringP i1 with
      | .ok i2 key =>
        match stringP i2 with
        | .ok i3 v =>
          match uNumberP i3 with
          | .ok i4 ttl => .ok i4 (.SetEx (bytesToStr key) v ttl)
          | .err k => .err k
          | .crash => .crash
        | .err k => .err k
        | .crash => .crash
      | .err k => .err k
      | .crash => .crash
    | .Lpush => pushBody i1 Command.Lpush
    | .Rpush => pushBody i1 Command.Rpush
    | .LpushX => pushBody i1 Command.LpushX
    | .RpushX => pushBody i1 Command.RpushX
    | .Lpop => popBody i1 Command.Lpop
    | .Rpop => popBody i1 Command.Rpop
    | .CommandDocs => .ok i1 Command.CommandDocs
    | .Ping => .ok i1 Command.Ping
    | .Incr =>
      match stringP i1 with
      | .ok i2 key => .ok i2 (.Incr (bytesToStr key))
      | .err k => .err k
      | .crash => .crash
    | .Del =>
      match sepListValues i1 with
      | .ok i2 vs => .ok i2 (.Del (vs.map bytesToStr))
      | .err k => .err k
      | .crash => .crash
    | .DbSize => .ok i1 Command.DbSize

/-- Re-inserting the value a key already holds leaves the dictionary
unchanged. -/
theorem dictInsert_self (d : Dict) (k : String) (v : Value)
    (h : dictGet d k = some v) : dictInsert d k v = d := by
  induction d with
  | nil => simp [dictGet] at h
  | cons hd tl ih =>
    obtain ⟨k2, v2⟩ := hd
    by_cases hk : k2 = k
    · subst hk
      simp [dictGet] at h
      simp [dictInsert, h]
    · simp [dictGet, hk] at h
      simp [dictInsert, hk, ih h]

/-- `Redis::push` can only fail with the `Type` error. -/
theorem redisPush_error_is_type (s : State) (k : String) (vs : List Bytes)
    (a f : Bool) (e : RErr) (h : redisPush s k vs a f = .error e) :
    e = .TypeErr := by
  cases hg : dictGet s.dict k with
  | none =>
    simp only [redisPush, hg] at h
    split at h <;> simp at h
  | some v =>
    cases v with
    | Raw d =>
      simp only [redisPush, hg] at h
      simpa using h.symm
    | List ll =>
      simp only [redisPush, hg] at h
      simp at h

/-- A push arm of `exec` replies either `Ok` or the `Type` error. -/
theorem pushArm_reply_ok_or_type (c : Command) (s : State) (k : String)
    (vs : List Bytes) (a f : Bool) :
    (pushArm c s k vs a f).reply = some (.ok .Ok) ∨
      (pushArm c s k vs a f).reply = some (.error .TypeErr) := by
  unfold pushArm
  cases h : redisPush s k vs a f with
  | ok r => left; rfl
  | error e =>
    right
    rw [redisPush_error_is_type s k vs a f e h]

/-- Claim C1: for a key already holding a List, LPUSH does insert each
element at the front and report the new length, but RPUSH on the same
existing list ALSO inserts at the front (the `front` flag is ignored on
the mutation path): pushing `b` onto the list `[a]` with RPUSH yields
`[b, a]`, not `[a, b]`. -/
theorem rpush_existing_list_inserts_at_front :
    redisPush ⟨[("k", Value.List [[97]])], []⟩ "k" [[98]] true false =
      .ok (2, ⟨[("k", Value.List [[98], [97]])], []⟩) ∧
    redisPush ⟨[("k", Value.List [[97]])], []⟩ "k" [[98]] true true =
      .ok (2, ⟨[("k", Value.List [[98], [97]])], []⟩) ∧
    ([[98], [97]] : List Bytes) ≠ [[97], [98]] := by decide

/-- Claim C2: a reaper tick is NOT panic-free.  On a heap entry
`(0, "k")` whose deadline has passed while `"k"` is absent from the
dictionary, the tick executes `dict.remove(&key).unwrap()` on `None`
and panics (`none`); the claim's other half — an entry with
`deadline ≥ now` is pushed back and the loop stops — does hold. -/
theorem reaper_tick_panics_on_stale_entry :
    reaperTick 1 ⟨[], [(0, "k")]⟩ = none ∧
    reaperTick 5 ⟨[("a", Value.Raw [120])], [(5, "k")]⟩ =
      some ⟨[("a", Value.Raw [120])], [(5, "k")]⟩ := by decide

/-- Claim C3, counterexample: `SET` is a mutating command, yet its
`exec` arm performs no journal write at all, refuting "every mutating
command invokes write(command) exactly once". -/
theorem set_command_is_never_journaled :
    isMutating (Command.Set "k" [97]) = true ∧
    journalWrites (exec 0 (Command.Set "k" [97]) ⟨[], []⟩).trace = [] := by
  decide

/-- Claim C3, amended: every mutating command EXCEPT `SET` (SETEX, the
four push variants, LPOP/RPOP, DEL, INCR) journals the command exactly
once, and that write precedes the application of the mutation: the
`exec` trace is exactly `[jwrite c, apply]`. -/
theorem mutating_non_set_journals_once_before_apply (now : Nat) (c : Command)
    (s : State) (hm : isMutating c = true) (hs : isSetCmd c = false) :
    (exec now c s).trace = [Event.jwrite c, Event.apply] := by
  cases c with
  | Set k v => simp [isSetCmd] at hs
  | Get k => simp [isMutating] at hm
  | Ping => simp [isMutating] at hm
  | CommandDocs => simp [isMutating] at hm
  | DbSize => simp [isMutating] at hm
  | Config => simp [isMutating] at hm
  | SetEx k v ttl => rfl
  | Del ks => rfl
  | Lpush k vs =>
    simp only [exec, pushArm]
    cases redisPush s k vs true true <;> rfl
  | Rpush k vs =>
    simp only [exec, pushArm]
    cases redisPush s k vs true false <;> rfl
  | LpushX k vs =>
    simp only [exec, pushArm]
    cases redisPush s k vs false true <;> rfl
  | RpushX k vs =>
    simp only [exec, pushArm]
    cases redisPush s k vs false false <;> rfl
  | Lpop k t =>
    simp only [exec, popArm]
    cases redisPop s k t true with
    | error e => rfl
    | ok r => cases h2 : redisValueFromLists r.1 <;> simp [h2]
  | Rpop k t =>
    simp only [exec, popArm]
    cases redisPop s k t false with
    | error e => rfl
    | ok r => cases h2 : redisValueFromLists r.1 <;> simp [h2]
  | Incr k =>
    simp only [exec]
    cases redisIncr s k <;> rfl

/-- Claim C3, witness for the amended theorem at `DEL k`. -/
theorem mutating_non_set_journals_once_before_apply_witness :
    isMutating (Command.Del ["k"]) = true ∧
    isSetCmd (Command.Del ["k"]) = false ∧
    (exec 0 (Command.Del ["k"]) ⟨[], []⟩).trace =
      [Event.jwrite (Command.Del ["k"]), Event.apply] :=
  ⟨by decide, by decide,
    mutating_non_set_journals_once_before_apply 0 (Command.Del ["k"]) ⟨[], []⟩
      (by decide) (by decide)⟩

/-- Claim C4, counterexample: `exec` of LPUSH on an absent key replies
with the bare `Ok` reply, not `Integer(1)` — the length computed by
`push` is discarded. -/
theorem push_exec_replies_bare_ok :
    (exec 0 (Command.Lpush "k" [[97]]) ⟨[], []⟩).reply =
      some (.ok RedisValue.Ok) ∧
    RedisValue.Ok ≠ RedisValue.Integer 1 := by decide

/-- Claim C4, amended: for every key and value sequence, `exec` of each
push variant replies either the bare `Ok` (on success) or the `Type`
error — never an `Integer`. -/
theorem push_exec_reply_ok_or_type_error (now : Nat) (s : State) (k : String)
    (vs : List Bytes) :
    ((exec now (.Lpush k vs) s).reply = some (.ok .Ok) ∨
      (exec now (.Lpush k vs) s).reply = some (.error .TypeErr)) ∧
    ((exec now (.Rpush k vs) s).reply = some (.ok .Ok) ∨
      (exec now (.Rpush k vs) s).reply = some (.error .TypeErr)) ∧
    ((exec now (.LpushX k vs) s).reply = some (.ok .Ok) ∨
      (exec now (.LpushX k vs) s).reply = some (.error .TypeErr)) ∧
    ((exec now (.RpushX k vs) s).reply = some (.ok .Ok) ∨
      (exec now (.RpushX k vs) s).reply = some (.error .TypeErr)) :=
  ⟨pushArm_reply_ok_or_type _ s k vs true true,
    pushArm_reply_ok_or_type _ s k vs true false,
    pushArm_reply_ok_or_type _ s k vs false true,
    pushArm_reply_ok_or_type _ s k vs false false⟩

/-- Claim C5: against a key `k1` holding any ByteString,
LPUSH/RPUSH/LPUSHX/RPUSHX and LPOP/RPOP fail with the `Type` error and
leave the keyspace unchanged; INCR against `k1` does too whenever the
bytes do not parse as a signed 64-bit decimal integer; and INCR against
a key `k2` holding a List does as well. -/
theorem wrong_type_ops_fail_without_mutation (now : Nat) (s : State)
    (k1 k2 : String) (v : Bytes) (ll : List Bytes) (vs : List Bytes) (t : Nat)
    (h1 : dictGet s.dict k1 = some (Value.Raw v))
    (h2 : dictGet s.dict k2 = some (Value.List ll)) :
    exec now (.Lpush k1 vs) s =
      ⟨[.jwrite (.Lpush k1 vs), .apply], some (.error .TypeErr), s⟩ ∧
    exec now (.Rpush k1 vs) s =
      ⟨[.jwrite (.Rpush k1 vs), .apply], some (.error .TypeErr), s⟩ ∧
    exec now (.LpushX k1 vs) s =
      ⟨[.jwrite (.LpushX k1 vs), .apply], some (.error .TypeErr), s⟩ ∧
    exec now (.RpushX k1 vs) s =
      ⟨[.jwrite (.RpushX k1 vs), .apply], some (.error .TypeErr), s⟩ ∧
    exec now (.Lpop k1 t) s =
      ⟨[.jwrite (.Lpop k1 t), .apply], some (.error .TypeErr), s⟩ ∧
    exec now (.Rpop k1 t) s =
      ⟨[.jwrite (.Rpop k1 t), .apply], some (.error .TypeErr), s⟩ ∧
    (parseI64 v = none →
      exec now (.Incr k1) s =
        ⟨[.jwrite (.Incr k1), .apply], some (.error .TypeErr), s⟩) ∧
    exec now (.Incr k2) s =
      ⟨[.jwrite (.Incr k2), .apply], some (.error .TypeErr), s⟩ := by
  refine ⟨?_, ?_, ?_, ?_, ?_, ?_, ?_, ?_⟩
  · simp [exec, pushArm, redisPush, h1]
  · simp [exec, pushArm, redisPush, h1]
  · simp [exec, pushArm, redisPush, h1]
  · simp [exec, pushArm, redisPush, h1]
  · simp [exec, popArm, redisPop, h1]
  · simp [exec, popArm, redisPop, h1]
  · intro hp
    simp [exec, redisIncr, h1, hp]
  · simp [exec, redisIncr, h2]

/-- Claim C5, witness: the keyspace `a ↦ ByteString "x", b ↦ List
[[97]]`, with both hypotheses discharged by evaluation. -/
theorem wrong_type_ops_fail_without_mutation_witness :
    (dictGet (State.mk [("a", Value.Raw [120]), ("b", Value.List [[97]])] []).dict "a" =
        some (Value.Raw [120]) ∧
      dictGet (State.mk [("a", Value.Raw [120]), ("b", Value.List [[97]])] []).dict "b" =
        some (Value.List [[97]])) ∧
    (exec 0 (.Lpush "a" [[99]]) ⟨[("a", Value.Raw [120]), ("b", Value.List [[97]])], []⟩ =
      ⟨[.jwrite (.Lpush "a" [[99]]), .apply], some (.error .TypeErr),
        ⟨[("a", Value.Raw [120]), ("b", Value.List [[97]])], []⟩⟩ ∧
    exec 0 (.Rpush "a" [[99]]) ⟨[("a", Value.Raw [120]), ("b", Value.List [[97]])], []⟩ =
      ⟨[.jwrite (.Rpush "a" [[99]]), .apply], some (.error .TypeErr),
        ⟨[("a", Value.Raw [120]), ("b", Value.List [[97]])], []⟩⟩ ∧
    exec 0 (.LpushX "a" [[99]]) ⟨[("a", Value.Raw [120]), ("b", Value.List [[97]])], []⟩ =
      ⟨[.jwrite (.LpushX "a" [[99]]), .apply], some (.error .TypeErr),
        ⟨[("a", Value.Raw [120]), ("b", Value.List [[97]])], []⟩⟩ ∧
    exec 0 (.RpushX "a" [[99]]) ⟨[("a", Value.Raw [120]), ("b", Value.List [[97]])], []⟩ =
      ⟨[.jwrite (.RpushX "a" [[99]]), .apply], some (.error .TypeErr),
        ⟨[("a", Value.Raw [120]), ("b", Value.List [[97]])], []⟩⟩ ∧
    exec 0 (.Lpop "a" 1) ⟨[("a", Value.Raw [120]), ("b", Value.List [[97]])], []⟩ =
      ⟨[.jwrite (.Lpop "a" 1), .apply], some (.error .TypeErr),
        ⟨[("a", Value.Raw [120]), ("b", Value.List [[97]])], []⟩⟩ ∧
    exec 0 (.Rpop "a" 1) ⟨[("a", Value.Raw [120]), ("b", Value.List [[97]])], []⟩ =
      ⟨[.jwrite (.Rpop "a" 1), .apply], some (.error .TypeErr),
        ⟨[("a", Value.Raw [120]), ("b", Value.List [[97]])], []⟩⟩ ∧
    (parseI64 [120] = none →
      exec 0 (.Incr "a") ⟨[("a", Value.Raw [120]), ("b", Value.List [[97]])], []⟩ =
        ⟨[.jwrite (.Incr "a"), .apply], some (.error .TypeErr),
          ⟨[("a", Value.Raw [120]), ("b", Value.List [[97]])], []⟩⟩) ∧
    exec 0 (.Incr "b") ⟨[("a", Value.Raw [120]), ("b", Value.List [[97]])], []⟩ =
      ⟨[.jwrite (.Incr "b"), .apply], some (.error .TypeErr),
        ⟨[("a", Value.Raw [120]), ("b", Value.List [[97]])], []⟩⟩) :=
  ⟨⟨by decide, by decide⟩,
    wrong_type_ops_fail_without_mutation 0
      ⟨[("a", Value.Raw [120]), ("b", Value.List [[97]])], []⟩
      "a" "b" [120] [[97]] [[99]] 1 (by decide) (by decide)⟩

/-- Claim C6: LPUSHX/RPUSHX on an absent key leave the whole state
untouched and return the argument count `n`. -/
theorem pushx_absent_key_unchanged_returns_count (s : State) (k : String)
    (vs : List Bytes) (front : Bool) (h : dictGet s.dict k = none) :
    redisPush s k vs false front = .ok (vs.length, s) := by
  simp [redisPush, h]

/-- Claim C6, witness at an absent key with two values. -/
theorem pushx_absent_key_unchanged_returns_count_witness :
    dictGet (State.mk [("other", Value.Raw [120])] []).dict "k" = none ∧
    redisPush ⟨[("other", Value.Raw [120])], []⟩ "k" [[97], [98]] false true =
      .ok (2, ⟨[("other", Value.Raw [120])], []⟩) :=
  ⟨by decide,
    pushx_absent_key_unchanged_returns_count
      ⟨[("other", Value.Raw [120])], []⟩ "k" [[97], [98]] true (by decide)⟩

/-- Claim C7: INCR on the ByteString "9223372036854775807" (i64::MAX)
does NOT fail with the `Type` error: the unchecked `v + 1` wraps (in
release builds; debug builds panic) and the stored value becomes
"-9223372036854775808".  The claim's second half — INCR at MAX-1
succeeds with Integer(MAX) — does hold. -/
theorem incr_at_i64_max_wraps_not_type_error :
    redisIncr ⟨[("n", Value.Raw (strBytes "9223372036854775807"))], []⟩ "n" =
      .ok (-(2 ^ 63),
        ⟨[("n", Value.Raw (strBytes "-9223372036854775808"))], []⟩) ∧
    redisIncr ⟨[("n", Value.Raw (strBytes "9223372036854775807"))], []⟩ "n" ≠
      .error .TypeErr ∧
    redisIncr ⟨[("n", Value.Raw (strBytes "9223372036854775806"))], []⟩ "n" =
      .ok (2 ^ 63 - 1,
        ⟨[("n", Value.Raw (strBytes "9223372036854775807"))], []⟩) := by decide

/-- Claim C8: the decoder never produces the "invalid expire time"
error: the `alt` in `cmd` tries `SET` before `SETEX`, so the command
word `SETEX` matches the `SET` tag with `EX` left over and the
subsequent CRLF tag fails — every SETEX frame is rejected with a
generic Tag error before the ttl is ever examined.  Had the ttl been
reached, `u_number` would accept `0` (no validation) and would panic,
not error, on a non-numeric ttl. -/
theorem setex_frames_never_reach_ttl_validation :
    rootP (strBytes "$5\r\nSETEX\r\n$1\r\nk\r\n$1\r\nv\r\n$1\r\n0\r\n") =
      .err "Tag" ∧
    tagNoCaseB (strBytes "SET") (strBytes "SETEX\r\n") =
      .ok (strBytes "EX\r\n") () ∧
    uNumberP (strBytes "$1\r\n0\r\n") = .ok [] 0 ∧
    uNumberP (strBytes "$1\r\nx\r\n") = .crash := by decide

/-- Claim C9, counterexample: LPOP with count 0 on a key holding a list
returns an empty popped vector, and the session encodes an empty array
as the null array `*-1\r\n` — not as a zero-element array `*0\r\n`. -/
theorem lpop_zero_on_list_encodes_null_array :
    redisPop ⟨[("k", Value.List [[97]])], []⟩ "k" 0 true =
      .ok ([], ⟨[("k", Value.List [[97]])], []⟩) ∧
    opResultFromLists [] = some (.Array []) ∧
    encodeOutput (.ok (.Array [])) = strBytes "*-1\r\n" ∧
    encodeOutput (.ok (.Array [])) ≠ strBytes "*0\r\n" := by decide

/-- Claim C9, amended: LPOP/RPOP with count 0 on a present list and
LPOP/RPOP on an absent key both return the empty popped vector with the
state unchanged, and the session encodes that empty vector as the null
array `*-1\r\n` in both cases. -/
theorem pop_count_zero_and_absent_both_encode_null (s : State) (k1 k2 : String)
    (ll : List Bytes) (t : Nat) (front : Bool)
    (h1 : dictGet s.dict k1 = some (Value.List ll))
    (h2 : dictGet s.dict k2 = none) :
    redisPop s k1 0 front = .ok ([], s) ∧
    redisPop s k2 t front = .ok ([], s) ∧
    opResultFromLists [] = some (.Array []) ∧
    encodeOutput (.ok (.Array [])) = strBytes "*-1\r\n" := by
  refine ⟨?_, ?_, by decide, by decide⟩
  · cases front <;>
      simp [redisPop, h1, popFrontN, popBackN, dictInsert_self s.dict k1 _ h1]
  · simp [redisPop, h2]

/-- Claim C9, witness for the amended theorem. -/
theorem pop_count_zero_and_absent_both_encode_null_witness :
    (dictGet (State.mk [("k", Value.List [[97]])] []).dict "k" =
        some (Value.List [[97]]) ∧
      dictGet (State.mk [("k", Value.List [[97]])] []).dict "z" = none) ∧
    (redisPop ⟨[("k", Value.List [[97]])], []⟩ "k" 0 true =
        .ok ([], ⟨[("k", Value.List [[97]])], []⟩) ∧
      redisPop ⟨[("k", Value.List [[97]])], []⟩ "z" 3 true =
        .ok ([], ⟨[("k", Value.List [[97]])], []⟩) ∧
      opResultFromLists [] = some (.Array []) ∧
      encodeOutput (.ok (.Array [])) = strBytes "*-1\r\n") :=
  ⟨⟨by decide, by decide⟩,
    pop_count_zero_and_absent_both_encode_null
      ⟨[("k", Value.List [[97]])], []⟩ "k" "z" [[97]] 3 true
      (by decide) (by decide)⟩

/-- Claim C10: converting popped byte arrays into a reply panics on
non-UTF-8 bytes: `RedisValue::from(vec![vec![0xFF]])` hits the
`String::from_utf8(..).unwrap()` and panics (`none`), and the `exec`
arm for LPOP on a list holding `[0xFF]` therefore panics on the reply
path; valid UTF-8 payloads convert successfully. -/
theorem reply_conversion_panics_on_non_utf8 :
    redisValueFromLists [[255]] = none ∧
    utf8Valid [255] = false ∧
    redisValueFromLists [strBytes "hi"] =
      some (.Array [strBytes "hi"]) ∧
    (exec 0 (.Lpop "k" 1) ⟨[("k", Value.List [[255]])], []⟩).reply = none := by
  decide

end Reddis
